import Mathlib

/-!
Verification development for the image-cropper application
(`src/app/ImageCropperApp.tsx`, `src/App.tsx`, `src/app/constants.ts`,
`src/app/types.ts`).  The stateful React component is shallowly embedded:
the pure computations performed by the event handlers are modelled as Lean
functions over explicit state values; JavaScript numbers are modelled as
rationals, `Math.round` as floor of `x + 1/2`, and the `>>> 0` coercion as
reduction modulo 2^32.
-/

namespace ImageCropper

/-! ## Data model (`app/types.ts`) -/

/-- The fields of a browser `File` object that the application reads:
`file.name`, `file.type` (MIME type) and `file.size` (bytes). -/
structure FileInfo where
  name : String
  type : String
  size : Nat
deriving DecidableEq, Repr

/-- `CropSettings` from `app/types.ts`. -/
structure CropSettings where
  x : ℚ
  y : ℚ
  width : ℚ
  height : ℚ
  aspectRatio : ℚ
deriving DecidableEq, Repr

/-- An entry of `cropHistory`: the crop rectangle with each coordinate
rounded to an integer (`Math.round`). -/
structure CropRect where
  x : Int
  y : Int
  width : Int
  height : Int
deriving DecidableEq, Repr

/-- `ImageData` from `app/types.ts`.  The browser `File` is kept as its
observable fields (`FileInfo`). -/
structure ImageData where
  id : String
  file : FileInfo
  url : String
  objectUrl : String
  cropped : Bool
  cropHistory : List CropRect
  cropSettings : Option CropSettings
deriving DecidableEq, Repr

/-- The rectangle returned by `cropper.getData()`. -/
structure CropData where
  x : ℚ
  y : ℚ
  width : ℚ
  height : ℚ
deriving DecidableEq, Repr

/-- The toast messages `processFiles` can schedule, identified by their
`createToastMessage` type together with the numeric/text payload that the
message text is built from. -/
inductive ToastMsg where
  | limitAtLimit (count : Nat)
  | limitPartial (added ignored : Nat)
  | duplicates (count : Nat)
  | invalidType (count : Nat)
  | fileSize (filename : String)
  | mimeMismatch (filename mimeType : String)
  | invalidImage (count : Nat)
deriving DecidableEq, Repr

/-- Whether a toast is one of the two limit toasts
(`TEXT.TOASTS.LIMIT.DESC.AT_LIMIT` / `.PARTIAL`). -/
def ToastMsg.isLimit : ToastMsg → Bool
  | .limitAtLimit _ => true
  | .limitPartial _ _ => true
  | _ => false

/-- Whether a toast is the `Duplicates detected` toast. -/
def ToastMsg.isDuplicates : ToastMsg → Bool
  | .duplicates _ => true
  | _ => false

/-! ## Constants (`app/constants.ts`) -/

/-- `MAX_FILE_SIZE = 10 * 1024 * 1024`. -/
def MAX_FILE_SIZE : Nat := 10 * 1024 * 1024

/-- `Object.keys(ACCEPTED_TYPES)`. -/
def acceptedMimeTypes : List String :=
  ["image/jpeg", "image/png", "image/gif", "image/webp"]

/-- `ACCEPTED_TYPES[t]` (the record lookup; the default `[]` is never used
by the code because the lookup only happens after a key-membership check). -/
def acceptedExtensionsFor : String → List String
  | "image/jpeg" => [".jpg", ".jpeg"]
  | "image/png" => [".png"]
  | "image/gif" => [".gif"]
  | "image/webp" => [".webp"]
  | _ => []

/-- `TIMING.DEBOUNCE = 50` (milliseconds). -/
def DEBOUNCE : Nat := 50

/-- `CROP_SIZE.MIN = 10` (`src/App.tsx`). -/
def CROP_SIZE_MIN : ℚ := 10

/-- `CROP_SIZE.MAX = 10000` (`src/App.tsx`). -/
def CROP_SIZE_MAX : ℚ := 10000

/-! ## Filename extension (`getFileExtension`) -/

/-- JavaScript `String.prototype.lastIndexOf` on a character: the index of
the last occurrence, `-1` when absent. -/
def lastIndexOf : List Char → Char → Int
  | [], _ => -1
  | a :: as, c =>
    let r := lastIndexOf as c
    if r = -1 then (if a = c then 0 else -1) else r + 1

/-- JavaScript `x >>> 0`: reduction to an unsigned 32-bit integer. -/
def jsToUint32 (x : Int) : Nat := (x % 4294967296).toNat

/-- `getFileExtension(filename)` from the source:
`filename.slice(((filename.lastIndexOf('.') - 1) >>> 0) + 2).toLowerCase()`. -/
def getFileExtension (filename : String) : String :=
  let cs := filename.toList
  let start := jsToUint32 (lastIndexOf cs '.' - 1) + 2
  String.mk ((cs.drop start).map Char.toLower)

/-! ## File validation and `processFiles` (`ImageCropperApp.tsx` 211-345,
`App.tsx` 409-554; both files contain the same logic) -/

/-- The Boolean condition of the `files.filter` in `processFiles`: accepted
MIME type, size at most `MAX_FILE_SIZE`, and `'.' + getFileExtension(name)`
registered for that MIME type. -/
def fileTypeValid (f : FileInfo) : Bool :=
  acceptedMimeTypes.contains f.type
    && decide (f.size ≤ MAX_FILE_SIZE)
    && (acceptedExtensionsFor f.type).contains ("." ++ getFileExtension f.name)

/-- The `files.filter` of `processFiles` together with the per-file toast
messages it pushes, in file order: a `file-size` toast for each oversized
file of accepted MIME type, a `mime-mismatch` toast for each file whose
extension is not registered for its MIME type. -/
def filterTypeValid : List FileInfo → List FileInfo × List ToastMsg
  | [] => ([], [])
  | f :: fs =>
    let rest := filterTypeValid fs
    if acceptedMimeTypes.contains f.type = false then
      (rest.1, rest.2)
    else if MAX_FILE_SIZE < f.size then
      (rest.1, ToastMsg.fileSize f.name :: rest.2)
    else if (acceptedExtensionsFor f.type).contains ("." ++ getFileExtension f.name) = false then
      (rest.1, ToastMsg.mimeMismatch f.name f.type :: rest.2)
    else
      (f :: rest.1, rest.2)

/-- The `imageFiles` that survive the size/MIME/extension filter and are
passed on to the duplicate check. -/
def typeValidFiles (files : List FileInfo) : List FileInfo :=
  (filterTypeValid files).1

/-- `existingFilenames`: the names of the already-loaded images. -/
def existingFilenames (images : List ImageData) : List String :=
  images.map (fun img => img.file.name)

/-- `nonDuplicateFiles`: the type-valid files whose name is not the name of
an already-loaded image. -/
def nonDupFiles (images : List ImageData) (files : List FileInfo) : List FileInfo :=
  (typeValidFiles files).filter
    (fun f => !((existingFilenames images).contains f.name))

/-- The `ImageData` built for an accepted file.  `Date.now()` is the `now`
parameter and `URL.createObjectURL` the `mkUrl` parameter. -/
def mkImage (mkUrl : FileInfo → String) (now : Nat) (f : FileInfo) : ImageData :=
  { id := f.name ++ "-" ++ toString now
    file := f
    url := mkUrl f
    objectUrl := mkUrl f
    cropped := false
    cropHistory := []
    cropSettings := none }

/-- The body of the debounced `setTimeout` callback of `processFiles`
(it only runs for a non-empty batch): returns the new image list and the
toast messages scheduled at the end.  `validImage` is the outcome of the
browser-side `validateImage` check for each file. -/
def processBatch (images : List ImageData) (files : List FileInfo)
    (validImage : FileInfo → Bool) (mkUrl : FileInfo → String) (now : Nat) :
    List ImageData × List ToastMsg :=
  if 10 - images.length = 0 then
    (images, [ToastMsg.limitAtLimit files.length])
  else
    let imageFiles := typeValidFiles files
    let invalidTypeCount := files.length - imageFiles.length
    let msgs1 := (filterTypeValid files).2
      ++ (if 0 < invalidTypeCount then [ToastMsg.invalidType invalidTypeCount] else [])
    if 0 < invalidTypeCount ∧ imageFiles = [] then
      (images, msgs1)
    else
      let nonDuplicateFiles := nonDupFiles images files
      let duplicateCount := imageFiles.length - nonDuplicateFiles.length
      let msgs2 := msgs1
        ++ (if 0 < duplicateCount then [ToastMsg.duplicates duplicateCount] else [])
      if 0 < duplicateCount ∧ nonDuplicateFiles = [] then
        (images, msgs2)
      else
        let filesToProcess := nonDuplicateFiles.take (10 - images.length)
        let ignoredDueToLimit := nonDuplicateFiles.length - (10 - images.length)
        if filesToProcess = [] then
          (images, msgs2
            ++ (if 0 < ignoredDueToLimit
                then [ToastMsg.limitPartial 0 ignoredDueToLimit] else []))
        else
          let validFiles := filesToProcess.filter validImage
          let invalidImageCount := filesToProcess.length - validFiles.length
          let msgs3 := msgs2
            ++ (if 0 < invalidImageCount
                then [ToastMsg.invalidImage invalidImageCount] else [])
          let msgs4 := msgs3
            ++ (if 0 < ignoredDueToLimit
                then [ToastMsg.limitPartial (filesToProcess.length - invalidImageCount)
                        ignoredDueToLimit] else [])
          (images ++ validFiles.map (mkImage mkUrl now), msgs4)

/-! ## Debounce scheduling of `processFiles` (`ImageCropperApp.tsx` 211-224) -/

/-- The pending debounce timer held in `processingTimeoutRef`: the time at
which its callback fires and the batch it will process. -/
structure DebounceTimer where
  fireAt : Nat
  batch : List FileInfo
deriving DecidableEq, Repr

/-- The scheduling-relevant part of the component state seen by a
`processFiles` call. -/
structure SchedState where
  isProcessing : Bool
  pendingTimer : Option DebounceTimer
deriving DecidableEq, Repr

/-- The externally visible actions of the synchronous part of a
`processFiles` call. -/
inductive CallEffect where
  | closeAllToasts
  | scheduleTimer (fireAt : Nat)
deriving DecidableEq, Repr

/-- The synchronous part of `processFiles`, called at time `now`: an early
return while `isProcessing` or on an empty batch; otherwise it cancels any
pending debounce timer, closes all toasts, sets `isProcessing` and schedules
the batch at `now + TIMING.DEBOUNCE`. -/
def processFilesCall (s : SchedState) (files : List FileInfo) (now : Nat) :
    SchedState × List CallEffect :=
  if s.isProcessing then (s, [])
  else if files = [] then (s, [])
  else
    ({ isProcessing := true
       pendingTimer := some { fireAt := now + DEBOUNCE, batch := files } },
     [CallEffect.closeAllToasts, CallEffect.scheduleTimer (now + DEBOUNCE)])

/-- Whether the pending debounce timer fires at time `t`: batch processing
(`processBatch`) starts only when this holds. -/
def canFireAt (s : SchedState) (t : Nat) : Bool :=
  match s.pendingTimer with
  | some tm => t = tm.fireAt
  | none => false

/-! ## Spec-side file validation (for comparison with the code)

The specification describes the accepted extension as the lowercased text
after the last dot of the filename; these definitions follow the claim's
words so they can be compared with `getFileExtension` from the source. -/

/-- The claimed extension: the lowercased text after the last dot
(empty when the filename has no dot). -/
def claimedExtension (filename : String) : String :=
  let cs := filename.toList
  let i := lastIndexOf cs '.'
  if i < 0 then "" else String.mk ((cs.drop (i.toNat + 1)).map Char.toLower)

/-- The claim's validation predicate, with the extension read as the text
after the last dot. -/
def claimedTypeValid (f : FileInfo) : Bool :=
  acceptedMimeTypes.contains f.type
    && decide (f.size ≤ MAX_FILE_SIZE)
    && (acceptedExtensionsFor f.type).contains ("." ++ claimedExtension f.name)

/-- The amended extension: as claimed, except that a filename whose only
dots start at position 0 counts as having no extension — i.e. the text
after the last dot when that dot has index at least 1, else empty.  This is
what the `>>> 0` slice trick in `getFileExtension` computes. -/
def amendedExtension (filename : String) : String :=
  let cs := filename.toList
  let i := lastIndexOf cs '.'
  if i ≤ 0 then "" else String.mk ((cs.drop (i.toNat + 1)).map Char.toLower)

/-- The amended validation predicate. -/
def amendedTypeValid (f : FileInfo) : Bool :=
  acceptedMimeTypes.contains f.type
    && decide (f.size ≤ MAX_FILE_SIZE)
    && (acceptedExtensionsFor f.type).contains ("." ++ amendedExtension f.name)

/-! ## Crop modal state (`ImageCropperApp.tsx`, `App.tsx`) -/

/-- The four numeric crop fields. -/
inductive CropKey where
  | x
  | y
  | width
  | height
deriving DecidableEq, Repr

/-- `{ ...prev, [key]: v }` on `CropSettings`. -/
def CropSettings.set (s : CropSettings) : CropKey → ℚ → CropSettings
  | CropKey.x, v => { s with x := v }
  | CropKey.y, v => { s with y := v }
  | CropKey.width, v => { s with width := v }
  | CropKey.height, v => { s with height := v }

namespace ImageCropperApp

/-- `handleNumericChange` from `app/ImageCropperApp.tsx` (lines 688-706):
`num = Math.max(0, Number(value))`; the edited key is set to `num`, and when
a fixed aspect ratio is selected and the key is `width` or `height`, the
other dimension is set to `num / aspectRatio`.  `aspectRatio` is
`getAspectRatioFromSelection(selectedAspectRatio)` and JavaScript truthiness
makes the recomputation happen exactly when it is nonzero. -/
def handleNumericChange (key : CropKey) (value : ℚ) (prev : CropSettings)
    (aspectRatio : ℚ) : CropSettings :=
  let num := max 0 value
  let base := prev.set key num
  if aspectRatio ≠ 0 ∧ (key = CropKey.width ∨ key = CropKey.height) then
    base.set (if key = CropKey.width then CropKey.height else CropKey.width)
      (num / aspectRatio)
  else base

/-- `handleAspectChange` (lines 632-671): the new settings keep `x`, `y`
and `width` from the cropper's current data and recompute
`height = width / aspectRatio` when the ratio is nonzero. -/
def handleAspectChange (aspectRatio : ℚ) (currentData : CropData) : CropSettings :=
  { x := currentData.x
    y := currentData.y
    width := currentData.width
    height := if aspectRatio ≠ 0 then currentData.width / aspectRatio else currentData.height
    aspectRatio := aspectRatio }

end ImageCropperApp

namespace App

/-- The completed-edit path (`isComplete = true`) of `handleNumericChange`
from `src/App.tsx` (lines 643-698): the entered value is first capped at
`CROP_SIZE.MAX` (`CROP_SIZE.MAX - CROP_SIZE.MIN` for `x`/`y`), then the
edited field of the cropper data is clamped against the image dimensions
(`canvasData.naturalWidth/Height`) and the current crop rectangle. -/
def handleNumericChange (key : CropKey) (value : ℚ) (currentData : CropData)
    (imageWidth imageHeight : ℚ) : CropData :=
  let cropMax := if key = CropKey.x ∨ key = CropKey.y
    then CROP_SIZE_MAX - CROP_SIZE_MIN else CROP_SIZE_MAX
  let num := min value cropMax
  match key with
  | CropKey.x => { currentData with x := max 0 (min (imageWidth - currentData.width) num) }
  | CropKey.y => { currentData with y := max 0 (min (imageHeight - currentData.height) num) }
  | CropKey.width =>
    { currentData with width := max CROP_SIZE_MIN (min (imageWidth - currentData.x) num) }
  | CropKey.height =>
    { currentData with height := max CROP_SIZE_MIN (min (imageHeight - currentData.y) num) }

end App

/-- `openCropModal`'s choice of initial crop settings once the image has
loaded with dimensions `w × h` (`ImageCropperApp.tsx` 364-417, `App.tsx`
774-827): Per-Image mode uses `image.cropSettings || defaultSettings`,
Global mode uses `globalCropSettings || image.cropSettings ||
defaultSettings`, where the default is the centered 50% crop. -/
def openCropModalInitial (isPerImageCrop : Bool) (globalCropSettings : Option CropSettings)
    (image : ImageData) (w h : ℚ) : CropSettings :=
  let defaultSettings : CropSettings :=
    { width := w / 2, height := h / 2, x := w / 4, y := h / 4, aspectRatio := 0 }
  if isPerImageCrop then
    match image.cropSettings with
    | some s => s
    | none => defaultSettings
  else
    match globalCropSettings with
    | some g => g
    | none =>
      match image.cropSettings with
      | some s => s
      | none => defaultSettings

/-! ## `handleCrop` (`ImageCropperApp.tsx` 434-555, `App.tsx` 845-970) -/

/-- `Math.round`: floor of `x + 1/2`. -/
def jsRound (q : ℚ) : Int := Rat.floor (q + 1 / 2)

/-- Which of the three exits of `handleCrop` is taken: the File System
Access API save path, the fallback anchor-download path, or the
`catch` path (save error or cancelled save dialog). -/
inductive CropOutcome where
  | savePicker
  | fallbackDownload
  | errorOrCancel
deriving DecidableEq, Repr

/-- The state update of `handleCrop` when `cropper` and `currentImage`
exist and `canvas.toBlob` yields a blob: given the outcome, the memory mode
(`isPerImageCrop`, which the handler never reads), the image list, the
current image, the cropper's final `getData()` rectangle and the active
aspect ratio, it returns the new image list and the value written to
`globalCropSettings` (all three paths write it). -/
def handleCrop (outcome : CropOutcome) (_isPerImageCrop : Bool)
    (images : List ImageData) (currentImage : ImageData) (data : CropData)
    (activeAspectRatio : ℚ) : List ImageData × CropSettings :=
  let newCropSettings : CropSettings :=
    { x := data.x, y := data.y, width := data.width, height := data.height
      aspectRatio := activeAspectRatio }
  let roundedEntry : CropRect :=
    { x := jsRound data.x, y := jsRound data.y
      width := jsRound data.width, height := jsRound data.height }
  match outcome with
  | CropOutcome.savePicker =>
    (images.map (fun img =>
      if img.id = currentImage.id then
        { img with cropped := true, cropSettings := some newCropSettings
                   cropHistory := img.cropHistory ++ [roundedEntry] }
      else img),
     newCropSettings)
  | CropOutcome.fallbackDownload =>
    (images.map (fun img =>
      if img.id = currentImage.id then
        { img with cropped := true, cropSettings := some newCropSettings
                   cropHistory := img.cropHistory ++ [roundedEntry] }
      else img),
     newCropSettings)
  | CropOutcome.errorOrCancel =>
    (images.map (fun img =>
      if img.id = currentImage.id then { img with cropSettings := some newCropSettings }
      else img),
     newCropSettings)

/-! ## Sample data used by witnesses -/

/-- A small well-formed PNG file. -/
def sampleFile : FileInfo := { name := "a.png", type := "image/png", size := 4 }

/-- A second PNG file with a different name. -/
def sampleFile2 : FileInfo := { name := "b.png", type := "image/png", size := 4 }

/-- An image loaded from `sampleFile`. -/
def sampleImage : ImageData :=
  { id := "a.png-0", file := sampleFile, url := "u", objectUrl := "u"
    cropped := false, cropHistory := [], cropSettings := none }

/-- An image loaded from `sampleFile2`. -/
def sampleImage2 : ImageData :=
  { id := "b.png-0", file := sampleFile2, url := "v", objectUrl := "v"
    cropped := false, cropHistory := [], cropSettings := none }

/-- A list of ten distinct loaded images (the limit). -/
def tenImages : List ImageData :=
  (List.range 10).map (fun i =>
    { id := toString i, file := { name := toString i ++ ".png", type := "image/png", size := 4 }
      url := "u", objectUrl := "u", cropped := false, cropHistory := [], cropSettings := none })

/-- Nine distinct loaded images (one slot left). -/
def nineImages : List ImageData :=
  (List.range 9).map (fun i =>
    { id := toString i, file := { name := toString i ++ ".png", type := "image/png", size := 4 }
      url := "u", objectUrl := "u", cropped := false, cropHistory := [], cropSettings := none })

/-! ## Helper lemmas -/

/-- `getD` of a mapped list at an in-range index. -/
theorem getD_map_lt {α β : Type} {f : α → β} {l : List α} (i : Nat) (d : β) (d2 : α)
    (h : i < l.length) : (l.map f).getD i d = f (l.getD i d2) := by
  induction l generalizing i with
  | nil => simp at h
  | cons a as ih =>
    cases i with
    | zero => rfl
    | succ n =>
      have hn : n < as.length := by simpa using h
      simpa [List.getD] using (by simpa [List.getD] using ih n hn :
        (as.map f).getD n d = f (as.getD n d2))

/-- `lastIndexOf` is `-1` or a valid index. -/
theorem lastIndexOf_bounds (cs : List Char) (c : Char) :
    lastIndexOf cs c = -1 ∨ (0 ≤ lastIndexOf cs c ∧ lastIndexOf cs c < cs.length) := by
  induction cs with
  | nil => exact Or.inl rfl
  | cons a as ih =>
    simp only [lastIndexOf, List.length_cons]
    rcases ih with h | h
    · rw [h]
      by_cases ha : a = c
      · simp [ha]
      · simp [ha]
    · rw [if_neg (by omega)]
      right
      constructor
      · omega
      · push_cast
        omega

/-- The `>>> 0` slice arithmetic of `getFileExtension` computes the
amended extension for any filename of fewer than 2^32 characters. -/
theorem getFileExtension_eq_amended (filename : String)
    (h : filename.toList.length ≤ 4294967295) :
    getFileExtension filename = amendedExtension filename := by
  simp only [getFileExtension, amendedExtension]
  rcases lastIndexOf_bounds filename.toList '.' with hi | hi
  · rw [hi]
    have hd : filename.toList.drop (jsToUint32 (-1 - 1) + 2) = [] := by
      apply List.drop_eq_nil_of_le
      have he : jsToUint32 (-1 - 1) + 2 = 4294967296 := by decide
      omega
    rw [hd, if_pos (by omega)]
    rfl
  · by_cases h0 : lastIndexOf filename.toList '.' = 0
    · rw [h0]
      have hd : filename.toList.drop (jsToUint32 (0 - 1) + 2) = [] := by
        apply List.drop_eq_nil_of_le
        have he : jsToUint32 (0 - 1) + 2 = 4294967297 := by decide
        omega
      rw [hd, if_pos (by omega)]
      rfl
    · have h1 : 1 ≤ lastIndexOf filename.toList '.' := by omega
      have hlt : lastIndexOf filename.toList '.' - 1 < 4294967296 := by
        have h2 := hi.2
        omega
      have hu : jsToUint32 (lastIndexOf filename.toList '.' - 1)
          = (lastIndexOf filename.toList '.' - 1).toNat := by
        simp only [jsToUint32]
        rw [Int.emod_eq_of_lt (by omega) hlt]
      rw [hu, if_neg (by omega)]
      have hn : (lastIndexOf filename.toList '.' - 1).toNat + 2
          = (lastIndexOf filename.toList '.').toNat + 1 := by omega
      rw [hn]

/-- The type filter of `processFiles` keeps exactly the files satisfying
`fileTypeValid`. -/
theorem filterTypeValid_fst (files : List FileInfo) :
    (filterTypeValid files).1 = files.filter fileTypeValid := by
  induction files with
  | nil => rfl
  | cons f fs ih =>
    simp only [filterTypeValid, List.filter_cons]
    cases hmime : acceptedMimeTypes.contains f.type with
    | false =>
      have hm : f.type ∉ acceptedMimeTypes := by simpa using hmime
      have hv : fileTypeValid f = false := by
        simp only [fileTypeValid]
        simp
        intro hmem
        exact absurd hmem hm
      simp [hm, hv, ih]
    | true =>
      have hm : f.type ∈ acceptedMimeTypes := by simpa using hmime
      by_cases hsize : MAX_FILE_SIZE < f.size
      · have hv : fileTypeValid f = false := by
          have hd : decide (f.size ≤ MAX_FILE_SIZE) = false := by
            simp only [decide_eq_false_iff_not]
            omega
          simp [fileTypeValid, hd]
        simp [hm, hsize, hv, ih]
      · cases hext : (acceptedExtensionsFor f.type).contains
            ("." ++ getFileExtension f.name) with
        | false =>
          have he : ("." ++ getFileExtension f.name) ∉ acceptedExtensionsFor f.type := by
            simpa using hext
          have hv : fileTypeValid f = false := by
            simp only [fileTypeValid]
            simp
            intro hmem hsz
            exact he
          simp [hm, hsize, he, hv, ih]
        | true =>
          have he : ("." ++ getFileExtension f.name) ∈ acceptedExtensionsFor f.type := by
            simpa using hext
          have hv : fileTypeValid f = true := by
            simp [fileTypeValid, Nat.not_lt.mp hsize]
            exact ⟨hm, he⟩
          simp [hm, hsize, he, hv, ih]

/-- Under the claim's size bound on filenames, the code's validation
predicate agrees with the amended one. -/
theorem fileTypeValid_eq_amended (f : FileInfo)
    (h : f.name.toList.length ≤ 4294967295) :
    fileTypeValid f = amendedTypeValid f := by
  unfold fileTypeValid amendedTypeValid
  rw [getFileExtension_eq_amended f.name h]

/-- Every oversized file of accepted MIME type gets a `file-size` toast. -/
theorem fileSize_msg_mem (files : List FileInfo) (f : FileInfo) (hf : f ∈ files)
    (h1 : acceptedMimeTypes.contains f.type = true) (h2 : MAX_FILE_SIZE < f.size) :
    ToastMsg.fileSize f.name ∈ (filterTypeValid files).2 := by
  induction files with
  | nil => cases hf
  | cons g gs ih =>
    rcases List.mem_cons.mp hf with hfg | hfg
    · subst hfg
      have hm : f.type ∈ acceptedMimeTypes := by simpa using h1
      have he : (filterTypeValid (f :: gs)).2
          = ToastMsg.fileSize f.name :: (filterTypeValid gs).2 := by
        simp [filterTypeValid, hm, h2]
      rw [he]
      exact List.mem_cons_self _ _
    · have hmem := ih hfg
      simp only [filterTypeValid]
      split
      · exact hmem
      · split
        · exact List.mem_cons_of_mem _ hmem
        · split
          · exact List.mem_cons_of_mem _ hmem
          · exact hmem

/-- Every accepted-MIME, size-ok file whose extension is not registered
for its MIME type gets a `mime-mismatch` toast. -/
theorem mimeMismatch_msg_mem (files : List FileInfo) (f : FileInfo) (hf : f ∈ files)
    (h1 : acceptedMimeTypes.contains f.type = true) (h2 : f.size ≤ MAX_FILE_SIZE)
    (h3 : (acceptedExtensionsFor f.type).contains ("." ++ getFileExtension f.name) = false) :
    ToastMsg.mimeMismatch f.name f.type ∈ (filterTypeValid files).2 := by
  induction files with
  | nil => cases hf
  | cons g gs ih =>
    rcases List.mem_cons.mp hf with hfg | hfg
    · subst hfg
      have hm : f.type ∈ acceptedMimeTypes := by simpa using h1
      have hx : ("." ++ getFileExtension f.name) ∉ acceptedExtensionsFor f.type := by
        simpa using h3
      have he : (filterTypeValid (f :: gs)).2
          = ToastMsg.mimeMismatch f.name f.type :: (filterTypeValid gs).2 := by
        simp [filterTypeValid, hm, hx, Nat.not_lt.mpr h2]
      rw [he]
      exact List.mem_cons_self _ _
    · have hmem := ih hfg
      simp only [filterTypeValid]
      split
      · exact hmem
      · split
        · exact List.mem_cons_of_mem _ hmem
        · split
          · exact List.mem_cons_of_mem _ hmem
          · exact hmem

theorem isDuplicates_duplicates (c : Nat) :
    (ToastMsg.duplicates c).isDuplicates = true := rfl

theorem isDuplicates_invalidType (c : Nat) :
    (ToastMsg.invalidType c).isDuplicates = false := rfl

theorem isDuplicates_invalidImage (c : Nat) :
    (ToastMsg.invalidImage c).isDuplicates = false := rfl

theorem isDuplicates_limitPartial (a b : Nat) :
    (ToastMsg.limitPartial a b).isDuplicates = false := rfl

/-- An optional singleton toast that is not a duplicates toast contributes
nothing to the duplicates count. -/
theorem countP_isDup_opt (c : Prop) [Decidable c] (m : ToastMsg)
    (hm : m.isDuplicates = false) :
    List.countP (fun x => x.isDuplicates) (if c then [m] else []) = 0 := by
  split <;> simp [List.countP_cons, hm]

/-- `processBatch` either leaves the image list unchanged (an early return)
or appends the images built from the valid non-duplicate files that fit in
the remaining slots. -/
theorem processBatch_fst (images : List ImageData) (files : List FileInfo)
    (validImage : FileInfo → Bool) (mkUrl : FileInfo → String) (now : Nat) :
    (processBatch images files validImage mkUrl now).1 = images
    ∨ (processBatch images files validImage mkUrl now).1
      = images ++ (((nonDupFiles images files).take (10 - images.length)).filter
          validImage).map (mkImage mkUrl now) := by
  simp only [processBatch]
  split_ifs <;> simp

/-- `processBatch` at the limit: the whole batch is refused with a single
at-limit toast. -/
theorem processBatch_full (images : List ImageData) (files : List FileInfo)
    (validImage : FileInfo → Bool) (mkUrl : FileInfo → String) (now : Nat)
    (h1 : 10 - images.length = 0) :
    processBatch images files validImage mkUrl now
      = (images, [ToastMsg.limitAtLimit files.length]) := by
  simp [processBatch, h1]

/-- When slots remain and more valid non-duplicate files arrive than fit,
a limit toast is among the scheduled messages. -/
theorem processBatch_limit_toast (images : List ImageData) (files : List FileInfo)
    (validImage : FileInfo → Bool) (mkUrl : FileInfo → String) (now : Nat)
    (hig : 0 < (nonDupFiles images files).length - (10 - images.length)) :
    ∃ m ∈ (processBatch images files validImage mkUrl now).2, m.isLimit = true := by
  by_cases h1 : 10 - images.length = 0
  · rw [processBatch_full images files validImage mkUrl now h1]
    exact ⟨ToastMsg.limitAtLimit files.length, List.mem_singleton_self _, rfl⟩
  · have hne : nonDupFiles images files ≠ [] := by
      intro hh
      rw [hh] at hig
      simp at hig
    have htv : ¬(typeValidFiles files = []) := by
      intro hh
      apply hne
      simp [nonDupFiles, hh]
    have hc2 : ¬(0 < files.length - (typeValidFiles files).length
        ∧ typeValidFiles files = []) := fun hand => htv hand.2
    have hc3 : ¬(0 < (typeValidFiles files).length - (nonDupFiles images files).length
        ∧ nonDupFiles images files = []) := fun hand => hne hand.2
    have hc4 : ¬((nonDupFiles images files).take (10 - images.length) = []) := by
      intro hh
      have hp : 0 < ((nonDupFiles images files).take (10 - images.length)).length := by
        rw [List.length_take]
        have hpos := List.length_pos.mpr hne
        omega
      rw [hh] at hp
      simp at hp
    simp only [processBatch]
    rw [if_neg h1, if_neg hc2, if_neg hc3, if_neg hc4, if_pos hig]
    exact ⟨_, List.mem_append_right _ (List.mem_singleton_self _), rfl⟩

/-- The per-file messages of the type filter contain no duplicates toast. -/
theorem filterTypeValid_msgs_not_dup (files : List FileInfo) :
    ((filterTypeValid files).2.countP (fun m => m.isDuplicates)) = 0 := by
  induction files with
  | nil => rfl
  | cons f fs ih =>
    simp only [filterTypeValid]
    split
    · exact ih
    · split
      · simpa [List.countP_cons, ToastMsg.isDuplicates] using ih
      · split
        · simpa [List.countP_cons, ToastMsg.isDuplicates] using ih
        · exact ih

/-! ## Claim theorems -/

/-- C1: a `processFiles` batch appends at most `max(0, 10 - current
count)` new images, leaving the already-loaded images unchanged, so a list
of at most ten images never grows beyond ten; when the list is already
full the whole batch is refused with an at-limit toast, and when more
valid candidates arrive than remaining slots a limit toast is scheduled. -/
theorem processBatch_limit_invariant (images : List ImageData)
    (files : List FileInfo) (validImage : FileInfo → Bool)
    (mkUrl : FileInfo → String) (now : Nat) :
    ∃ newImgs : List ImageData,
      (processBatch images files validImage mkUrl now).1 = images ++ newImgs
      ∧ newImgs.length ≤ 10 - images.length
      ∧ (processBatch images files validImage mkUrl now).1.length
          ≤ max images.length 10
      ∧ (10 ≤ images.length →
          (processBatch images files validImage mkUrl now).2
            = [ToastMsg.limitAtLimit files.length])
      ∧ (0 < (nonDupFiles images files).length - (10 - images.length) →
          ∃ m ∈ (processBatch images files validImage mkUrl now).2,
            m.isLimit = true) := by
  have hconj4 : 10 ≤ images.length →
      (processBatch images files validImage mkUrl now).2
        = [ToastMsg.limitAtLimit files.length] := by
    intro h10
    rw [processBatch_full images files validImage mkUrl now (by omega)]
  have hconj5 := processBatch_limit_toast images files validImage mkUrl now
  have hm1 : images.length ≤ max images.length 10 := le_max_left _ _
  have hm2 : 10 ≤ max images.length 10 := le_max_right _ _
  rcases processBatch_fst images files validImage mkUrl now with hf | hf
  · refine ⟨[], by simp [hf], by simp, ?_, hconj4, hconj5⟩
    rw [hf]
    exact hm1
  · have hk : ((((nonDupFiles images files).take (10 - images.length)).filter
        validImage).map (mkImage mkUrl now)).length ≤ 10 - images.length := by
      rw [List.length_map]
      have l1 := List.length_filter_le validImage
        ((nonDupFiles images files).take (10 - images.length))
      have l2 : ((nonDupFiles images files).take (10 - images.length)).length
          ≤ 10 - images.length := by
        rw [List.length_take]
        omega
      omega
    refine ⟨_, hf, hk, ?_, hconj4, hconj5⟩
    rw [hf, List.length_append]
    omega

/-- C1 witness: with ten images loaded, a one-file batch is refused with
the at-limit toast; with nine images loaded, adding two fresh PNGs appends
one image and schedules a limit toast. -/
theorem processBatch_limit_invariant_witness :
    (processBatch tenImages [sampleFile] (fun _ => true) (fun _ => "u") 0).2
      = [ToastMsg.limitAtLimit 1]
    ∧ (∃ m ∈ (processBatch nineImages [sampleFile, sampleFile2]
        (fun _ => true) (fun _ => "u") 0).2, m.isLimit = true) := by
  constructor
  · obtain ⟨n, c1, c2, c3, c4, c5⟩ := processBatch_limit_invariant tenImages
      [sampleFile] (fun _ => true) (fun _ => "u") 0
    exact c4 (by decide)
  · obtain ⟨n, c1, c2, c3, c4, c5⟩ := processBatch_limit_invariant nineImages
      [sampleFile, sampleFile2] (fun _ => true) (fun _ => "u") 0
    exact c5 (by decide)

/-- C2 counterexample: the file named `.png` with MIME type `image/png`
and size 123 satisfies the claim's predicate — the text after its last dot
is `png`, which is registered for `image/png` — yet the code's filter
rejects it (the `>>> 0` slice trick yields an empty extension for a
filename whose last dot is its first character), so it is not passed on to
the duplicate check. -/
theorem fileFilter_dotfile_counterexample :
    claimedTypeValid { name := ".png", type := "image/png", size := 123 } = true
    ∧ fileTypeValid { name := ".png", type := "image/png", size := 123 } = false
    ∧ typeValidFiles [{ name := ".png", type := "image/png", size := 123 }] = [] := by
  refine ⟨by decide, by decide, by decide⟩

/-- C2 (amended): for filenames of fewer than 2^32 characters, a candidate
file is passed on to the duplicate check exactly when its MIME type is
accepted, its size is at most `MAX_FILE_SIZE`, and its lowercased
extension — the text after the last dot when that dot is not the first
character, empty otherwise — is registered for the MIME type; every
rejected file is counted (the invalid-type toast count equals the number
of rejected files), and oversized or extension-mismatched files of
accepted MIME type additionally get their file-size / mime-mismatch
toast. -/
theorem processFiles_type_filter_amended (files : List FileInfo)
    (h : ∀ f ∈ files, f.name.toList.length ≤ 4294967295) :
    typeValidFiles files = files.filter amendedTypeValid
    ∧ files.length - (typeValidFiles files).length
        = files.countP (fun f => !(amendedTypeValid f))
    ∧ (∀ f ∈ files, acceptedMimeTypes.contains f.type = true → MAX_FILE_SIZE < f.size →
        ToastMsg.fileSize f.name ∈ (filterTypeValid files).2)
    ∧ (∀ f ∈ files, acceptedMimeTypes.contains f.type = true → f.size ≤ MAX_FILE_SIZE →
        (acceptedExtensionsFor f.type).contains ("." ++ getFileExtension f.name) = false →
        ToastMsg.mimeMismatch f.name f.type ∈ (filterTypeValid files).2) := by
  have hfe : typeValidFiles files = files.filter amendedTypeValid := by
    rw [typeValidFiles, filterTypeValid_fst]
    exact List.filter_congr (fun f hf => fileTypeValid_eq_amended f (h f hf))
  refine ⟨hfe, ?_, ?_, ?_⟩
  · rw [hfe]
    have hc : (files.filter amendedTypeValid).length = files.countP amendedTypeValid :=
      (List.countP_eq_length_filter _ _).symm
    rw [hc]
    have hsplit := List.length_eq_countP_add_countP (l := files)
      (p := amendedTypeValid)
    have hcn : files.countP (fun f => !(amendedTypeValid f))
        = files.countP (fun f => ¬ amendedTypeValid f = true) := by
      apply List.countP_congr
      intro f _
      cases amendedTypeValid f <;> simp
    rw [hcn]
    omega
  · intro f hf h1 h2
    exact fileSize_msg_mem files f hf h1 h2
  · intro f hf h1 h2 h3
    exact mimeMismatch_msg_mem files f hf h1 h2 h3

/-- C2 witness: a batch with an oversized PNG and a PNG-typed file with a
`.jpg` extension; both are rejected with their specific toasts, nothing is
passed on, and the rejected count is 2. -/
theorem processFiles_type_filter_amended_witness :
    typeValidFiles
        [{ name := "b.png", type := "image/png", size := 10485761 },
         { name := "c.jpg", type := "image/png", size := 4 }]
      = []
    ∧ ToastMsg.fileSize "b.png" ∈ (filterTypeValid
        [{ name := "b.png", type := "image/png", size := 10485761 },
         { name := "c.jpg", type := "image/png", size := 4 }]).2
    ∧ ToastMsg.mimeMismatch "c.jpg" "image/png" ∈ (filterTypeValid
        [{ name := "b.png", type := "image/png", size := 10485761 },
         { name := "c.jpg", type := "image/png", size := 4 }]).2
    ∧ (2 : Nat) - (typeValidFiles
        [{ name := "b.png", type := "image/png", size := 10485761 },
         { name := "c.jpg", type := "image/png", size := 4 }]).length
      = List.countP (fun f => !(amendedTypeValid f))
        [{ name := "b.png", type := "image/png", size := 10485761 },
         { name := "c.jpg", type := "image/png", size := 4 }] := by
  have hw := processFiles_type_filter_amended
    [{ name := "b.png", type := "image/png", size := 10485761 },
     { name := "c.jpg", type := "image/png", size := 4 }]
    (by intro f hf; fin_cases hf <;> decide)
  refine ⟨?_, ?_, ?_, ?_⟩
  · rw [hw.1]
    decide
  · exact hw.2.2.1 { name := "b.png", type := "image/png", size := 10485761 }
      (by decide) (by decide) (by decide)
  · exact hw.2.2.2 { name := "c.jpg", type := "image/png", size := 4 }
      (by decide) (by decide) (by decide) (by decide)
  · exact hw.2.1

/-- C8 counterexample: a candidate whose name duplicates a loaded image
(`a.png`) but whose MIME type is `text/plain` is rejected by the type
filter before the duplicate check runs, so the only scheduled toast is the
invalid-type one — the file is a duplicate-named candidate that is not
counted in any `Duplicates detected` toast, contrary to the claim. -/
theorem processBatch_duplicate_toast_counterexample :
    (existingFilenames [sampleImage]).contains "a.png" = true
    ∧ (processBatch [sampleImage] [{ name := "a.png", type := "text/plain", size := 4 }]
        (fun _ => true) (fun _ => "u") 0).2
      = [ToastMsg.invalidType 1] := by
  refine ⟨by decide, by decide⟩

/-- C8 (amended): no image appended by `processBatch` carries a filename
already in the list (duplicate-named files are never added); when the list
is not already full, the type-valid duplicates — and only those — are
counted in a single `Duplicates detected` toast; and when every type-valid
candidate is a duplicate the image list is left entirely unchanged. -/
theorem processBatch_duplicates_amended (images : List ImageData)
    (files : List FileInfo) (validImage : FileInfo → Bool)
    (mkUrl : FileInfo → String) (now : Nat) :
    (∀ img ∈ (processBatch images files validImage mkUrl now).1,
        img ∈ images ∨ (existingFilenames images).contains img.file.name = false)
    ∧ (images.length < 10 →
        0 < (typeValidFiles files).length - (nonDupFiles images files).length →
        (List.countP (fun m => m.isDuplicates)
            (processBatch images files validImage mkUrl now).2 = 1
         ∧ ToastMsg.duplicates
              ((typeValidFiles files).length - (nonDupFiles images files).length)
            ∈ (processBatch images files validImage mkUrl now).2))
    ∧ ((typeValidFiles files).all
          (fun f => (existingFilenames images).contains f.name) = true →
        (processBatch images files validImage mkUrl now).1 = images) := by
  refine ⟨?_, ?_, ?_⟩
  · -- no duplicate-named image is ever appended
    intro img himg
    rcases processBatch_fst images files validImage mkUrl now with hf | hf
    · rw [hf] at himg
      exact Or.inl himg
    · rw [hf] at himg
      rcases List.mem_append.mp himg with hold | hnew
      · exact Or.inl hold
      · right
        obtain ⟨f, hfmem, rfl⟩ := List.mem_map.mp hnew
        have hft : f ∈ (nonDupFiles images files).take (10 - images.length) :=
          (List.mem_filter.mp hfmem).1
        have hfn := List.take_subset _ _ hft
        have hpred := (List.mem_filter.mp hfn).2
        simpa [mkImage] using hpred
  · -- single duplicates toast counting the type-valid duplicates
    intro hlen hdup
    have h1 : ¬(10 - images.length = 0) := by omega
    have htv : ¬(typeValidFiles files = []) := by
      intro hh
      rw [hh] at hdup
      simp at hdup
    have hc2 : ¬(0 < files.length - (typeValidFiles files).length
        ∧ typeValidFiles files = []) := fun hand => htv hand.2
    by_cases hnd : nonDupFiles images files = []
    · -- duplicate early return
      have hc3 : 0 < (typeValidFiles files).length - (nonDupFiles images files).length
          ∧ nonDupFiles images files = [] := ⟨hdup, hnd⟩
      simp only [processBatch]
      rw [if_neg h1, if_neg hc2, if_pos hc3, if_pos hdup]
      constructor
      · simp [List.countP_append, List.countP_cons, filterTypeValid_msgs_not_dup,
          countP_isDup_opt, isDuplicates_duplicates, isDuplicates_invalidType,
          isDuplicates_invalidImage, isDuplicates_limitPartial]
      · exact List.mem_append_right _ (List.mem_singleton_self _)
    · -- main branch: the duplicates toast is inside the message prefix
      have hc3 : ¬(0 < (typeValidFiles files).length - (nonDupFiles images files).length
          ∧ nonDupFiles images files = []) := fun hand => hnd hand.2
      have hc4 : ¬((nonDupFiles images files).take (10 - images.length) = []) := by
        intro hh
        have hp : 0 < ((nonDupFiles images files).take (10 - images.length)).length := by
          rw [List.length_take]
          have hpos := List.length_pos.mpr hnd
          omega
        rw [hh] at hp
        simp at hp
      simp only [processBatch]
      rw [if_neg h1, if_neg hc2, if_neg hc3, if_neg hc4, if_pos hdup]
      constructor
      · simp [List.countP_append, List.countP_cons, filterTypeValid_msgs_not_dup,
          countP_isDup_opt, isDuplicates_duplicates, isDuplicates_invalidType,
          isDuplicates_invalidImage, isDuplicates_limitPartial]
      · exact List.mem_append_left _ (List.mem_append_left _
          (List.mem_append_right _ (List.mem_singleton_self _)))
  · -- all type-valid candidates duplicates: list unchanged
    intro hall
    have hnd : nonDupFiles images files = [] := by
      rw [nonDupFiles]
      rw [List.filter_eq_nil_iff]
      intro f hfmem
      have hft := List.all_eq_true.mp hall f hfmem
      simp only [hft]
      simp
    rcases processBatch_fst images files validImage mkUrl now with hf | hf
    · exact hf
    · rw [hf, hnd]
      simp

/-- C8 witness: one loaded image `a.png` and a type-valid candidate with
the same name — one duplicates toast counting it, and the list unchanged. -/
theorem processBatch_duplicates_amended_witness :
    List.countP (fun m => m.isDuplicates)
        (processBatch [sampleImage] [sampleFile] (fun _ => true) (fun _ => "u") 0).2 = 1
    ∧ ToastMsg.duplicates 1
        ∈ (processBatch [sampleImage] [sampleFile] (fun _ => true) (fun _ => "u") 0).2
    ∧ (processBatch [sampleImage] [sampleFile] (fun _ => true) (fun _ => "u") 0).1
      = [sampleImage] := by
  have hw := processBatch_duplicates_amended [sampleImage] [sampleFile]
    (fun _ => true) (fun _ => "u") 0
  have hd := hw.2.1 (by decide) (by decide)
  refine ⟨hd.1, ?_, hw.2.2 (by decide)⟩
  have hcount : (typeValidFiles [sampleFile]).length
      - (nonDupFiles [sampleImage] [sampleFile]).length = 1 := by decide
  have hmem := hd.2
  rw [hcount] at hmem
  exact hmem

/-- C3 (code bug evaluation): in `handleNumericChange` of
`app/ImageCropperApp.tsx`, editing the height field to 100 with selected
fixed aspect ratio 2 and previous settings (0, 0, 40, 20) sets the width to
`100 / 2 = 50` instead of the ratio-preserving `2 * 100 = 200`: the code
writes `num / aspectRatio` into the other dimension regardless of which of
width/height was edited, so the resulting settings violate
`width = aspectRatio * height`, contradicting the claim and the code's own
comment (`maintains aspect ratio if set`). -/
theorem handleNumericChange_height_edit_eval :
    (ImageCropperApp.handleNumericChange CropKey.height 100
        { x := 0, y := 0, width := 40, height := 20, aspectRatio := 2 } 2).width = 50
    ∧ (ImageCropperApp.handleNumericChange CropKey.height 100
        { x := 0, y := 0, width := 40, height := 20, aspectRatio := 2 } 2).height = 100
    ∧ ¬ ((ImageCropperApp.handleNumericChange CropKey.height 100
        { x := 0, y := 0, width := 40, height := 20, aspectRatio := 2 } 2).width
      = 2 * (ImageCropperApp.handleNumericChange CropKey.height 100
        { x := 0, y := 0, width := 40, height := 20, aspectRatio := 2 } 2).height) := by
  refine ⟨?_, ?_, ?_⟩ <;>
    norm_num [ImageCropperApp.handleNumericChange, CropSettings.set, max_def,
      show (if CropKey.height = CropKey.width then CropKey.height else CropKey.width)
          = CropKey.width from rfl]

/-- C4: the completed numeric edit of `src/App.tsx` clamps the entered
value `v` exactly as claimed: the value is first capped at
`CROP_SIZE.MAX` (at `CROP_SIZE.MAX - CROP_SIZE.MIN` for `x`/`y` edits) and
the edited field is then clamped into the range allowed by the image
dimensions and the rest of the current crop rectangle. -/
theorem App_handleNumericChange_clamps (v : ℚ) (d : CropData) (iw ih : ℚ) :
    (App.handleNumericChange CropKey.x v d iw ih).x
      = max 0 (min (iw - d.width) (min v (10000 - 10)))
    ∧ (App.handleNumericChange CropKey.y v d iw ih).y
      = max 0 (min (ih - d.height) (min v (10000 - 10)))
    ∧ (App.handleNumericChange CropKey.width v d iw ih).width
      = max 10 (min (iw - d.x) (min v 10000))
    ∧ (App.handleNumericChange CropKey.height v d iw ih).height
      = max 10 (min (ih - d.y) (min v 10000)) := by
  refine ⟨?_, ?_, ?_, ?_⟩ <;>
    simp [App.handleNumericChange, CROP_SIZE_MAX, CROP_SIZE_MIN]

/-- C5: `openCropModal` selects the initial crop settings by memory mode:
Per-Image mode takes the image's remembered settings when present and the
default centered 50% crop otherwise; Global mode takes the global settings
when present, else the image's settings, else the same default. -/
theorem openCropModalInitial_selection (b : Bool) (g : Option CropSettings)
    (img : ImageData) (w h : ℚ) :
    (img.cropSettings = none → g = none →
      openCropModalInitial b g img w h =
        { width := w / 2, height := h / 2, x := w / 4, y := h / 4, aspectRatio := 0 })
    ∧ (∀ s, img.cropSettings = some s → openCropModalInitial true g img w h = s)
    ∧ (∀ gs, g = some gs → openCropModalInitial false g img w h = gs)
    ∧ (∀ s, g = none → img.cropSettings = some s →
        openCropModalInitial false g img w h = s) := by
  refine ⟨?_, ?_, ?_, ?_⟩
  · intro h1 h2
    cases b <;> simp [openCropModalInitial, h1, h2]
  · intro s hs
    simp [openCropModalInitial, hs]
  · intro gs hg
    simp [openCropModalInitial, hg]
  · intro s hg hs
    simp [openCropModalInitial, hg, hs]

/-- C5 witness: the selection evaluated on concrete states. -/
theorem openCropModalInitial_selection_witness :
    openCropModalInitial true none sampleImage 8 4 =
      { width := 8 / 2, height := 4 / 2, x := 8 / 4, y := 4 / 4, aspectRatio := 0 }
    ∧ openCropModalInitial false
        (some { x := 1, y := 2, width := 3, height := 4, aspectRatio := 0 }) sampleImage 8 4
      = { x := 1, y := 2, width := 3, height := 4, aspectRatio := 0 }
    ∧ openCropModalInitial false none
        { sampleImage with
          cropSettings := some { x := 5, y := 6, width := 7, height := 8, aspectRatio := 1 } } 8 4
      = { x := 5, y := 6, width := 7, height := 8, aspectRatio := 1 } := by
  refine ⟨?_, ?_, ?_⟩
  · exact (openCropModalInitial_selection true none sampleImage 8 4).1 rfl rfl
  · exact (openCropModalInitial_selection false
      (some { x := 1, y := 2, width := 3, height := 4, aspectRatio := 0 })
      sampleImage 8 4).2.2.1 _ rfl
  · exact (openCropModalInitial_selection false none
      { sampleImage with
        cropSettings := some { x := 5, y := 6, width := 7, height := 8, aspectRatio := 1 } }
      8 4).2.2.2 _ rfl rfl

/-- C10: all three exits of `handleCrop` (save picker, fallback download,
error/cancel) write the attempted crop rectangle into the global crop
settings, for either memory mode `b` — Per-Image mode included, since the
handler never consults the mode. -/
theorem handleCrop_always_sets_global (o : CropOutcome) (b : Bool)
    (images : List ImageData) (cur : ImageData) (data : CropData) (r : ℚ) :
    (handleCrop o b images cur data r).2
      = { x := data.x, y := data.y, width := data.width, height := data.height
          aspectRatio := r } := by
  cases o <;> rfl

/-- C6: on the two successful exits of `handleCrop`, the image whose id
matches the current image gets exactly one new `cropHistory` entry — the
final crop rectangle with every coordinate rounded — and its `cropped`
flag set, with `id`, `file` and `url` untouched, while every image with a
different id is left unchanged. -/
theorem handleCrop_success_updates (o : CropOutcome)
    (ho : o ≠ CropOutcome.errorOrCancel) (b : Bool) (images : List ImageData)
    (cur : ImageData) (data : CropData) (r : ℚ) (dflt : ImageData) (i : Nat)
    (hi : i < images.length) :
    (handleCrop o b images cur data r).1.length = images.length
    ∧ ((images.getD i dflt).id = cur.id →
        ((handleCrop o b images cur data r).1.getD i dflt).cropHistory
          = (images.getD i dflt).cropHistory
            ++ [{ x := jsRound data.x, y := jsRound data.y
                  width := jsRound data.width, height := jsRound data.height }]
        ∧ ((handleCrop o b images cur data r).1.getD i dflt).cropped = true
        ∧ ((handleCrop o b images cur data r).1.getD i dflt).id
            = (images.getD i dflt).id
        ∧ ((handleCrop o b images cur data r).1.getD i dflt).file
            = (images.getD i dflt).file
        ∧ ((handleCrop o b images cur data r).1.getD i dflt).url
            = (images.getD i dflt).url)
    ∧ ((images.getD i dflt).id ≠ cur.id →
        (handleCrop o b images cur data r).1.getD i dflt = images.getD i dflt) := by
  cases o
  case errorOrCancel => exact absurd rfl ho
  all_goals {
    refine ⟨by simp [handleCrop], ?_, ?_⟩
    · intro hid
      simp only [handleCrop, getD_map_lt i dflt dflt hi]
      rw [if_pos hid]
      exact ⟨rfl, rfl, rfl, rfl, rfl⟩
    · intro hid
      simp only [handleCrop, getD_map_lt i dflt dflt hi]
      rw [if_neg hid] }

/-- C6 witness: a concrete successful crop on a two-image list. -/
theorem handleCrop_success_updates_witness :
    ((handleCrop CropOutcome.savePicker true [sampleImage, sampleImage2] sampleImage
        { x := 1, y := 2, width := 3, height := 4 } 0).1.getD 0 sampleImage).cropHistory
      = sampleImage.cropHistory
        ++ [{ x := jsRound 1, y := jsRound 2, width := jsRound 3, height := jsRound 4 }]
    ∧ (handleCrop CropOutcome.savePicker true [sampleImage, sampleImage2] sampleImage
        { x := 1, y := 2, width := 3, height := 4 } 0).1.getD 1 sampleImage
      = sampleImage2 := by
  constructor
  · exact ((handleCrop_success_updates CropOutcome.savePicker (by decide) true
      [sampleImage, sampleImage2] sampleImage { x := 1, y := 2, width := 3, height := 4 }
      0 sampleImage 0 (by decide)).2.1 (by decide)).1
  · exact (handleCrop_success_updates CropOutcome.savePicker (by decide) true
      [sampleImage, sampleImage2] sampleImage { x := 1, y := 2, width := 3, height := 4 }
      0 sampleImage 1 (by decide)).2.2 (by decide)

/-- C9: on the error/cancel exit of `handleCrop`, the matching image keeps
its `cropHistory` and `cropped` flag but still receives the attempted crop
rectangle as its `cropSettings`, the global crop settings are also set to
that rectangle, and every image with a different id is left unchanged: the
error-path state update is partial, not atomic. -/
theorem handleCrop_error_partial_update (b : Bool) (images : List ImageData)
    (cur : ImageData) (data : CropData) (r : ℚ) (dflt : ImageData) (i : Nat)
    (hi : i < images.length) :
    (handleCrop CropOutcome.errorOrCancel b images cur data r).2
      = { x := data.x, y := data.y, width := data.width, height := data.height
          aspectRatio := r }
    ∧ (handleCrop CropOutcome.errorOrCancel b images cur data r).1.length = images.length
    ∧ ((images.getD i dflt).id = cur.id →
        ((handleCrop CropOutcome.errorOrCancel b images cur data r).1.getD i dflt).cropHistory
          = (images.getD i dflt).cropHistory
        ∧ ((handleCrop CropOutcome.errorOrCancel b images cur data r).1.getD i dflt).cropped
            = (images.getD i dflt).cropped
        ∧ ((handleCrop CropOutcome.errorOrCancel b images cur data r).1.getD i dflt).cropSettings
            = some { x := data.x, y := data.y, width := data.width, height := data.height
                     aspectRatio := r }
        ∧ ((handleCrop CropOutcome.errorOrCancel b images cur data r).1.getD i dflt).id
            = (images.getD i dflt).id
        ∧ ((handleCrop CropOutcome.errorOrCancel b images cur data r).1.getD i dflt).file
            = (images.getD i dflt).file
        ∧ ((handleCrop CropOutcome.errorOrCancel b images cur data r).1.getD i dflt).url
            = (images.getD i dflt).url)
    ∧ ((images.getD i dflt).id ≠ cur.id →
        (handleCrop CropOutcome.errorOrCancel b images cur data r).1.getD i dflt
          = images.getD i dflt) := by
  refine ⟨rfl, by simp [handleCrop], ?_, ?_⟩
  · intro hid
    simp only [handleCrop, getD_map_lt i dflt dflt hi]
    rw [if_pos hid]
    exact ⟨rfl, rfl, rfl, rfl, rfl, rfl⟩
  · intro hid
    simp only [handleCrop, getD_map_lt i dflt dflt hi]
    rw [if_neg hid]

/-- C9 witness: a concrete failed save on a two-image list. -/
theorem handleCrop_error_partial_update_witness :
    ((handleCrop CropOutcome.errorOrCancel true [sampleImage, sampleImage2] sampleImage
        { x := 1, y := 2, width := 3, height := 4 } 0).1.getD 0 sampleImage).cropHistory
      = sampleImage.cropHistory
    ∧ ((handleCrop CropOutcome.errorOrCancel true [sampleImage, sampleImage2] sampleImage
        { x := 1, y := 2, width := 3, height := 4 } 0).1.getD 0 sampleImage).cropSettings
      = some { x := 1, y := 2, width := 3, height := 4, aspectRatio := 0 }
    ∧ (handleCrop CropOutcome.errorOrCancel true [sampleImage, sampleImage2] sampleImage
        { x := 1, y := 2, width := 3, height := 4 } 0).1.getD 1 sampleImage
      = sampleImage2 := by
  refine ⟨?_, ?_, ?_⟩
  · exact ((handleCrop_error_partial_update true [sampleImage, sampleImage2] sampleImage
      { x := 1, y := 2, width := 3, height := 4 } 0 sampleImage 0 (by decide)).2.2.1
      (by decide)).1
  · exact ((handleCrop_error_partial_update true [sampleImage, sampleImage2] sampleImage
      { x := 1, y := 2, width := 3, height := 4 } 0 sampleImage 0 (by decide)).2.2.1
      (by decide)).2.2.1
  · exact (handleCrop_error_partial_update true [sampleImage, sampleImage2] sampleImage
      { x := 1, y := 2, width := 3, height := 4 } 0 sampleImage 1 (by decide)).2.2.2
      (by decide)

/-- C7: while a previous batch is still processing, a further
`processFiles` call changes nothing and emits no effects (it returns before
`toast.closeAll` and before touching the timer); otherwise, for a
non-empty batch, the call replaces any pending debounce timer with one
firing at `now + TIMING.DEBOUNCE`, so batch processing cannot start at any
time earlier than 50 ms after the call and an earlier pending timer is
cancelled. -/
theorem processFilesCall_guard_debounce (s : SchedState) (files : List FileInfo)
    (now : Nat) :
    (s.isProcessing = true → processFilesCall s files now = (s, []))
    ∧ (s.isProcessing = false → files ≠ [] →
        (processFilesCall s files now).1.pendingTimer
            = some { fireAt := now + DEBOUNCE, batch := files }
        ∧ ∀ t : Nat, canFireAt (processFilesCall s files now).1 t = true →
            now + DEBOUNCE ≤ t) := by
  constructor
  · intro hp
    simp [processFilesCall, hp]
  · intro hp hf
    constructor
    · simp [processFilesCall, hp, hf]
    · intro t ht
      simp [processFilesCall, hp, hf, canFireAt] at ht
      omega

/-- C7 witness: a call during processing is a no-op; a later call replaces
a pending timer (scheduled for time 9) with one firing at `3 + 50 = 53`. -/
theorem processFilesCall_guard_debounce_witness :
    processFilesCall { isProcessing := true, pendingTimer := none } [sampleFile] 7
      = ({ isProcessing := true, pendingTimer := none }, [])
    ∧ (processFilesCall
        { isProcessing := false, pendingTimer := some { fireAt := 9, batch := [] } }
        [sampleFile] 3).1.pendingTimer
      = some { fireAt := 53, batch := [sampleFile] } := by
  constructor
  · exact (processFilesCall_guard_debounce
      { isProcessing := true, pendingTimer := none } [sampleFile] 7).1 rfl
  · exact ((processFilesCall_guard_debounce
      { isProcessing := false, pendingTimer := some { fireAt := 9, batch := [] } }
      [sampleFile] 3).2 rfl (by decide)).1

end ImageCropper
